import Mathlib

/-!
Verification of the `react-native-reanimated-progress` components
(`AnimatedProgressCircle`, `AnimatedProgressBar`) against their
specification.  The numeric formulas of both components are embedded
shallowly: JavaScript numbers are modelled by `ℚ` (and by `ℝ` where the
circle geometry multiplies by `π`), and the reanimated shared-value /
animation-command machinery is modelled by a small explicit state type.
-/

namespace ReanimatedProgress

/-- An animation command attached to a reanimated shared value:
either the value is at rest, or a `withTiming` transition toward a target
is running, or a `withRepeat`-wrapped timing transition is looping
(`reverse = true` means ping-pong). -/
inductive Anim where
  | rest : Anim
  | timing (target duration : ℚ) : Anim
  | repeatTiming (target duration : ℚ) (reverse : Bool) : Anim
  deriving DecidableEq

/-- A reanimated shared value: its current numeric value together with the
animation command currently driving it. -/
structure SV where
  value : ℚ
  anim : Anim
  deriving DecidableEq

/-- Direct assignment `sv.value = x`: replaces the value and cancels any
running animation. -/
def setValue (_sv : SV) (x : ℚ) : SV := ⟨x, Anim.rest⟩

/-- `cancelAnimation(sv)`: stops the running animation, keeping the
current value. -/
def cancelAnimation (sv : SV) : SV := ⟨sv.value, Anim.rest⟩

/-- `sv.value = withTiming(target, {duration})`: starts a timed transition
toward `target`. -/
def withTimingTo (sv : SV) (target duration : ℚ) : SV :=
  ⟨sv.value, Anim.timing target duration⟩

/-- `sv.value = withRepeat(withTiming(target, {duration}), -1, reverse)`:
starts an indefinitely looping timed transition. -/
def withRepeatTo (sv : SV) (target duration : ℚ) (reverse : Bool) : SV :=
  ⟨sv.value, Anim.repeatTiming target duration reverse⟩

/-- Time until the shared value stops changing: `0` at rest, the timing
duration for a `withTiming` transition, and never (`none`) for an
indefinitely repeating animation. -/
def settleTime (sv : SV) : Option ℚ :=
  match sv.anim with
  | Anim.rest => some 0
  | Anim.timing _ d => some d
  | Anim.repeatTiming _ _ _ => none

/-- The value the shared value converges to, for non-repeating commands. -/
def settledValue (sv : SV) : ℚ :=
  match sv.anim with
  | Anim.rest => sv.value
  | Anim.timing t _ => t
  | Anim.repeatTiming _ _ _ => sv.value

/-- Modelled from the spec: the mathematical clamp of `p` to `[0,1]`,
written `clamp(p,0,1)`. -/
def specClamp (p : ℚ) : ℚ := min (max p 0) 1

namespace AnimatedProgressBar

/-- `Math.max(0, Math.min(1, progress))` as computed in
`AnimatedProgressBar`. -/
def clampProgress (progress : ℚ) : ℚ := max 0 (min 1 progress)

/-- The width of the filled segment in `determinateStyle`:
`containerWidth.value * progressValue.value`. -/
def determinateBarWidth (containerWidth progressValue : ℚ) : ℚ :=
  containerWidth * progressValue

/-- The reanimated `interpolate(v, [inMin, inMax], [outMin, outMax])`
helper (an external collaborator of the component): linear interpolation
of `v` from the input range onto the output range. -/
def interpolate (v inMin inMax outMin outMax : ℚ) : ℚ :=
  outMin + (v - inMin) / (inMax - inMin) * (outMax - outMin)

/-- The width of the filled segment in `indeterminateStyle`:
`containerWidth.value * 0.3`. -/
def indeterminateBarWidth (containerWidth : ℚ) : ℚ :=
  containerWidth * 0.3

/-- The horizontal offset of the filled segment in `indeterminateStyle`:
`interpolate(indeterminateValue.value, [0, 1], [0, maxTranslate])` where
`maxTranslate = containerWidth - barWidth`. -/
def indeterminateTranslateX (containerWidth phase : ℚ) : ℚ :=
  interpolate phase 0 1 0 (containerWidth - indeterminateBarWidth containerWidth)

/-- `handleLayout`: the container width after a layout event reporting
`layoutWidth`, given the `width` prop (`none` models `null`).  The
JavaScript guard `if (!width)` treats both `null` and `0` as falsy. -/
def handleLayout (width : Option ℚ) (layoutWidth containerWidth : ℚ) : ℚ :=
  match width with
  | none => layoutWidth
  | some w => if w = 0 then layoutWidth else containerWidth

/-- The width effect: `if (width) { containerWidth.value = width }`. -/
def widthEffect (width : Option ℚ) (containerWidth : ℚ) : ℚ :=
  match width with
  | none => containerWidth
  | some w => if w = 0 then containerWidth else w

/-- The border radius of the inner filled segment in `progressBarStyle`:
`Math.max(0, borderRadius - borderWidth)`. -/
def progressBarInnerBorderRadius (borderRadius borderWidth : ℚ) : ℚ :=
  max 0 (borderRadius - borderWidth)

/-- The progress effect of `AnimatedProgressBar`: clamps the `progress`
prop and either starts a timed transition of `progressValue` toward it
(when animated and determinate) or assigns it directly. -/
def progressEffect (progress : ℚ) (animated : Bool) (animationDuration : ℚ)
    (indeterminate : Bool) (progressValue : SV) : SV :=
  let clampedProgress := clampProgress progress
  if animated && !indeterminate then
    withTimingTo progressValue clampedProgress animationDuration
  else
    setValue progressValue clampedProgress

/-- The indeterminate effect of `AnimatedProgressBar`: when indeterminate,
starts the infinitely repeating ping-pong timing on `indeterminateValue`;
otherwise cancels it and resets the value to `0`. -/
def indeterminateEffect (indeterminate : Bool) (indeterminateDuration : ℚ)
    (indeterminateValue : SV) : SV :=
  if indeterminate then
    withRepeatTo indeterminateValue 1 indeterminateDuration true
  else
    setValue (cancelAnimation indeterminateValue) 0

/-- The cleanup returned by the indeterminate effect, run at unmount:
`cancelAnimation(indeterminateValue)`. -/
def indeterminateEffectCleanup (indeterminateValue : SV) : SV :=
  cancelAnimation indeterminateValue

end AnimatedProgressBar

namespace AnimatedProgressCircle

/-- `Math.max(0, Math.min(1, progress))` as computed in
`AnimatedProgressCircle`. -/
def clampProgress (progress : ℚ) : ℚ := max 0 (min 1 progress)

/-- `const radius = (size - thickness) / 2`. -/
def radius (size thickness : ℚ) : ℚ := (size - thickness) / 2

/-- `const circumference = 2 * Math.PI * radius`. -/
noncomputable def circumference (size thickness : ℚ) : ℝ :=
  2 * Real.pi * (radius size thickness : ℝ)

/-- The `strokeDashoffset` computed by `determinateProps`:
`offset = circumference * (1 - progressValue.value)`, negated when the
direction is counter-clockwise. -/
noncomputable def determinateStrokeDashoffset (size thickness : ℚ)
    (isCounterClockwise : Bool) (progressValue : ℝ) : ℝ :=
  let offset := circumference size thickness * (1 - progressValue)
  if isCounterClockwise then -offset else offset

/-- The arc length of `indeterminateProps`: `circumference * 0.25`. -/
noncomputable def indeterminateArcLength (size thickness : ℚ) : ℝ :=
  circumference size thickness * 0.25

/-- The gap length of `indeterminateProps`: `circumference * 0.75`. -/
noncomputable def indeterminateGapLength (size thickness : ℚ) : ℝ :=
  circumference size thickness * 0.75

/-- The `strokeDashoffset` of `indeterminateProps`, a constant `0`. -/
def indeterminateStrokeDashoffset : ℚ := 0

/-- The progress effect of `AnimatedProgressCircle`: clamps the `progress`
prop and either starts a timed transition of `progressValue` toward it
(when animated and determinate) or assigns it directly. -/
def progressEffect (progress : ℚ) (animated : Bool) (animationDuration : ℚ)
    (indeterminate : Bool) (progressValue : SV) : SV :=
  let clampedProgress := clampProgress progress
  if animated && !indeterminate then
    withTimingTo progressValue clampedProgress animationDuration
  else
    setValue progressValue clampedProgress

/-- The indeterminate effect of `AnimatedProgressCircle`: when
indeterminate, starts the infinitely repeating (non-reversing) spin
toward `360` on `spinRotation`; otherwise cancels it and resets the
rotation to `0`. -/
def spinEffect (indeterminate : Bool) (spinDuration : ℚ)
    (spinRotation : SV) : SV :=
  if indeterminate then
    withRepeatTo spinRotation 360 spinDuration false
  else
    setValue (cancelAnimation spinRotation) 0

/-- The cleanup returned by the indeterminate effect, run at unmount:
`cancelAnimation(spinRotation)`. -/
def spinEffectCleanup (spinRotation : SV) : SV :=
  cancelAnimation spinRotation

end AnimatedProgressCircle

/-- The value over time of
`withRepeat(withTiming(1, {duration, easing}), -1, true)`, the reanimated
animation started by the bar's indeterminate effect: repetition number
`⌊t / duration⌋` replays the timing curve, running it backward on every
other repetition (ping-pong). `easing` is the timing curve, an arbitrary
function with `easing 0 = 0` and `easing 1 = 1`. -/
def pingPongPhase (duration : ℚ) (easing : ℚ → ℚ) (t : ℚ) : ℚ :=
  if ⌊t / duration⌋ % 2 = 0 then easing (Int.fract (t / duration))
  else 1 - easing (Int.fract (t / duration))

/-- Both components clamp with `Math.max(0, Math.min(1, ·))`, which agrees
with the mathematical clamp to `[0,1]`. -/
lemma max_min_eq_specClamp (p : ℚ) : max 0 (min 1 p) = specClamp p := by
  unfold specClamp
  simp only [min_def, max_def]
  split_ifs <;> linarith

/-- **C1.** For every progress input `p` to `AnimatedProgressCircle` and
`AnimatedProgressBar`, including every `p` outside `[0,1]`, the fraction
used for rendering equals `clamp(p,0,1)`: negative input is corrected to
`0`, input above `1` to `1`, in-range input passes through, and the
result always lies in `[0,1]` — the clamp is a total function, so
out-of-range input is silently corrected, never rejected. -/
theorem progress_clamping (p : ℚ) :
    AnimatedProgressCircle.clampProgress p = specClamp p ∧
    AnimatedProgressBar.clampProgress p = specClamp p ∧
    0 ≤ specClamp p ∧ specClamp p ≤ 1 ∧
    (p < 0 → specClamp p = 0) ∧ (1 < p → specClamp p = 1) ∧
    (0 ≤ p → p ≤ 1 → specClamp p = p) := by
  refine ⟨max_min_eq_specClamp p, max_min_eq_specClamp p, ?_, ?_, ?_, ?_, ?_⟩ <;>
    unfold specClamp <;> simp only [min_def, max_def] <;>
    split_ifs <;> intros <;> linarith

/-- **C1 witness.** At the out-of-range input `p = 2` the rendered
fraction is `clamp(2,0,1) = 1`. -/
theorem progress_clamping_witness :
    AnimatedProgressCircle.clampProgress 2 = specClamp 2 ∧
    (1:ℚ) < 2 ∧ specClamp 2 = 1 :=
  ⟨(progress_clamping 2).1, by norm_num,
    (progress_clamping 2).2.2.2.2.2.1 (by norm_num)⟩

/-- **C3.** For every container width `w > 0` and every progress value
`p`, the determinate bar's filled segment width — the bar at rest, where
`progressValue` holds the clamped progress — equals `w * clamp(p,0,1)`. -/
theorem determinate_bar_width_eq (w p : ℚ) (hw : 0 < w) :
    AnimatedProgressBar.determinateBarWidth w (AnimatedProgressBar.clampProgress p)
      = w * specClamp p := by
  unfold AnimatedProgressBar.determinateBarWidth AnimatedProgressBar.clampProgress
  rw [max_min_eq_specClamp p]

/-- **C3 witness.** With `progress = 0.5` and a measured container width
of `200`, the filled width at rest is `100`. -/
theorem determinate_bar_width_witness :
    (0:ℚ) < 200 ∧
    AnimatedProgressBar.determinateBarWidth 200
      (AnimatedProgressBar.clampProgress (1/2)) = 100 := by
  refine ⟨by norm_num, ?_⟩
  rw [determinate_bar_width_eq 200 (1/2) (by norm_num)]
  norm_num [specClamp]

/-- **C5.** For every container width `w ≥ 0` and indeterminate-cycle
phase `v ∈ [0,1]`, the indeterminate bar's filled segment width is
exactly `0.3 * w`, and its horizontal offset lies in `[0, w - 0.3*w]`,
attaining `0` at phase `0` and `w - 0.3*w` at phase `1`. -/
theorem indeterminate_bar_geometry (w v : ℚ) (hw : 0 ≤ w)
    (hv0 : 0 ≤ v) (hv1 : v ≤ 1) :
    AnimatedProgressBar.indeterminateBarWidth w = 0.3 * w ∧
    0 ≤ AnimatedProgressBar.indeterminateTranslateX w v ∧
    AnimatedProgressBar.indeterminateTranslateX w v ≤ w - 0.3 * w ∧
    AnimatedProgressBar.indeterminateTranslateX w 0 = 0 ∧
    AnimatedProgressBar.indeterminateTranslateX w 1 = w - 0.3 * w := by
  unfold AnimatedProgressBar.indeterminateTranslateX
    AnimatedProgressBar.interpolate AnimatedProgressBar.indeterminateBarWidth
  have hseg : (0:ℚ) ≤ w - w * 0.3 := by nlinarith
  refine ⟨by ring, ?_, ?_, by ring, by ring⟩
  · simpa using mul_nonneg hv0 hseg
  · have h := mul_nonneg (sub_nonneg.mpr hv1) hseg
    nlinarith

/-- **C5 witness.** With container width `200` and phase `1/2` the
segment width is `60` and the offset lies within its bounds. -/
theorem indeterminate_bar_geometry_witness :
    (0:ℚ) ≤ 200 ∧
    (AnimatedProgressBar.indeterminateBarWidth 200 = 0.3 * 200 ∧
     0 ≤ AnimatedProgressBar.indeterminateTranslateX 200 (1/2) ∧
     AnimatedProgressBar.indeterminateTranslateX 200 (1/2) ≤ 200 - 0.3 * 200 ∧
     AnimatedProgressBar.indeterminateTranslateX 200 0 = 0 ∧
     AnimatedProgressBar.indeterminateTranslateX 200 1 = 200 - 0.3 * 200) :=
  ⟨by norm_num,
    indeterminate_bar_geometry 200 (1/2) (by norm_num) (by norm_num) (by norm_num)⟩

/-- **C8.** When an explicit nonzero width is supplied, layout
measurements are ignored and the explicit width is used as the container
width; otherwise each layout event overwrites the container width with
the measured width, so a resize recomputes it. -/
theorem width_resolution (w layoutWidth layoutWidth2 cw : ℚ) (hw : w ≠ 0) :
    AnimatedProgressBar.handleLayout (some w) layoutWidth cw = cw ∧
    AnimatedProgressBar.widthEffect (some w) cw = w ∧
    AnimatedProgressBar.handleLayout none layoutWidth cw = layoutWidth ∧
    AnimatedProgressBar.handleLayout none layoutWidth2
      (AnimatedProgressBar.handleLayout none layoutWidth cw) = layoutWidth2 := by
  unfold AnimatedProgressBar.handleLayout AnimatedProgressBar.widthEffect
  simp [hw]

/-- **C8 witness.** With explicit width `150`, a layout event reporting
`200` is ignored and the width effect installs `150`. -/
theorem width_resolution_witness :
    (150:ℚ) ≠ 0 ∧
    AnimatedProgressBar.handleLayout (some 150) 200 150 = 150 ∧
    AnimatedProgressBar.widthEffect (some 150) 0 = 150 :=
  ⟨by norm_num, (width_resolution 150 200 250 150 (by norm_num)).1,
    (width_resolution 150 200 250 0 (by norm_num)).2.1⟩

/-- **C10.** The inner filled segment's border radius equals
`max(0, borderRadius - borderWidth)`: it is `borderRadius - borderWidth`
when that is nonnegative and `0` otherwise, so it is never negative even
when `borderWidth` exceeds `borderRadius`. -/
theorem inner_border_radius_clamped (borderRadius borderWidth : ℚ) :
    AnimatedProgressBar.progressBarInnerBorderRadius borderRadius borderWidth
      = max 0 (borderRadius - borderWidth) ∧
    0 ≤ AnimatedProgressBar.progressBarInnerBorderRadius borderRadius borderWidth ∧
    AnimatedProgressBar.progressBarInnerBorderRadius borderRadius borderWidth
      = if borderWidth ≤ borderRadius then borderRadius - borderWidth else 0 := by
  unfold AnimatedProgressBar.progressBarInnerBorderRadius
  refine ⟨rfl, le_max_left _ _, ?_⟩
  simp only [max_def]
  split_ifs <;> linarith

/-- **C2.** For every size, thickness, progress value and direction, the
determinate circle at rest — `progressValue` holding the clamped
progress — has stroke dash-offset `circumference * (1 - clampedProgress)`
when clockwise and the negation of that value when counter-clockwise. -/
theorem determinate_circle_dashoffset (size thickness p : ℚ) :
    AnimatedProgressCircle.determinateStrokeDashoffset size thickness false
        ((AnimatedProgressCircle.clampProgress p : ℚ) : ℝ)
      = AnimatedProgressCircle.circumference size thickness
          * (1 - ((AnimatedProgressCircle.clampProgress p : ℚ) : ℝ)) ∧
    AnimatedProgressCircle.determinateStrokeDashoffset size thickness true
        ((AnimatedProgressCircle.clampProgress p : ℚ) : ℝ)
      = -(AnimatedProgressCircle.circumference size thickness
          * (1 - ((AnimatedProgressCircle.clampProgress p : ℚ) : ℝ))) := by
  unfold AnimatedProgressCircle.determinateStrokeDashoffset
  exact ⟨rfl, rfl⟩

/-- **C4.** For every size and thickness, the indeterminate circle's drawn
arc is exactly a quarter of the circumference and the gap exactly three
quarters: the two sum to the full circumference, independent of the
progress value (which does not enter the indeterminate dash pattern), and
the dash offset is `0`. -/
theorem indeterminate_circle_arc (size thickness : ℚ) :
    4 * AnimatedProgressCircle.indeterminateArcLength size thickness
      = AnimatedProgressCircle.circumference size thickness ∧
    4 * AnimatedProgressCircle.indeterminateGapLength size thickness
      = 3 * AnimatedProgressCircle.circumference size thickness ∧
    AnimatedProgressCircle.indeterminateArcLength size thickness
        + AnimatedProgressCircle.indeterminateGapLength size thickness
      = AnimatedProgressCircle.circumference size thickness ∧
    AnimatedProgressCircle.indeterminateStrokeDashoffset = 0 := by
  unfold AnimatedProgressCircle.indeterminateArcLength
    AnimatedProgressCircle.indeterminateGapLength
    AnimatedProgressCircle.indeterminateStrokeDashoffset
  refine ⟨?_, ?_, ?_, rfl⟩ <;> norm_num <;> ring

/-- **C9.** For `progress = 0.75`, `size = 100`, `thickness = 8`,
clockwise, at rest: the radius is `46`, the circumference is
`2π * 46 = 92π` (within `0.01` of `289.03`), and the dash-offset is a
quarter of the circumference, `23π` (within `0.01` of `72.26`). -/
theorem circle_end_to_end :
    AnimatedProgressCircle.radius 100 8 = 46 ∧
    AnimatedProgressCircle.circumference 100 8 = 92 * Real.pi ∧
    |AnimatedProgressCircle.circumference 100 8 - 289.03| < 0.01 ∧
    AnimatedProgressCircle.determinateStrokeDashoffset 100 8 false
        ((AnimatedProgressCircle.clampProgress (3/4) : ℚ) : ℝ)
      = AnimatedProgressCircle.circumference 100 8 * 0.25 ∧
    AnimatedProgressCircle.determinateStrokeDashoffset 100 8 false
        ((AnimatedProgressCircle.clampProgress (3/4) : ℚ) : ℝ)
      = 23 * Real.pi ∧
    |AnimatedProgressCircle.determinateStrokeDashoffset 100 8 false
        ((AnimatedProgressCircle.clampProgress (3/4) : ℚ) : ℝ) - 72.26| < 0.01 := by
  have hr : AnimatedProgressCircle.radius 100 8 = 46 := by
    unfold AnimatedProgressCircle.radius; norm_num
  have hclamp : AnimatedProgressCircle.clampProgress (3/4) = 3/4 := by
    unfold AnimatedProgressCircle.clampProgress; norm_num
  have hc : AnimatedProgressCircle.circumference 100 8 = 92 * Real.pi := by
    unfold AnimatedProgressCircle.circumference
    rw [hr]; push_cast; ring
  have hoff : AnimatedProgressCircle.determinateStrokeDashoffset 100 8 false
      ((AnimatedProgressCircle.clampProgress (3/4) : ℚ) : ℝ) = 23 * Real.pi := by
    unfold AnimatedProgressCircle.determinateStrokeDashoffset
    rw [hclamp, hc]; push_cast; ring
  have hpi_lo := Real.pi_gt_d6
  have hpi_hi := Real.pi_lt_d6
  refine ⟨hr, hc, ?_, ?_, hoff, ?_⟩
  · rw [hc, abs_sub_lt_iff]; constructor <;> nlinarith
  · rw [hoff, hc]; ring
  · rw [hoff, abs_sub_lt_iff]; constructor <;> nlinarith

/-- **C7.** Switching `indeterminate` in either direction cancels the
running transition of the now-inactive mode and resets its state: on
indeterminate→determinate the looping animation is cancelled and its
value (spin rotation / cycle phase) reset to `0`, while the progress
effect drives the value toward the clamped progress, settling within
`animationDuration` (immediately when not animated); on
determinate→indeterminate the progress effect's direct assignment cancels
any running determinate timing; and the effect cleanups run at unmount
cancel the looping animations. Stated for both components. -/
theorem mode_switch_cancellation (p : ℚ) (animated : Bool)
    (animationDuration spinDuration indetDuration : ℚ)
    (hdur : 0 ≤ animationDuration) (pv spin iv bpv : SV) :
    (AnimatedProgressCircle.spinEffect false spinDuration spin).anim = Anim.rest ∧
    (AnimatedProgressCircle.spinEffect false spinDuration spin).value = 0 ∧
    settledValue (AnimatedProgressCircle.progressEffect p animated
        animationDuration false pv) = AnimatedProgressCircle.clampProgress p ∧
    (∃ ts, settleTime (AnimatedProgressCircle.progressEffect p animated
        animationDuration false pv) = some ts ∧ ts ≤ animationDuration) ∧
    (AnimatedProgressCircle.progressEffect p animated animationDuration true
        pv).anim = Anim.rest ∧
    (AnimatedProgressCircle.spinEffectCleanup spin).anim = Anim.rest ∧
    (AnimatedProgressBar.indeterminateEffect false indetDuration iv).anim
        = Anim.rest ∧
    (AnimatedProgressBar.indeterminateEffect false indetDuration iv).value = 0 ∧
    settledValue (AnimatedProgressBar.progressEffect p animated
        animationDuration false bpv) = AnimatedProgressBar.clampProgress p ∧
    (∃ ts, settleTime (AnimatedProgressBar.progressEffect p animated
        animationDuration false bpv) = some ts ∧ ts ≤ animationDuration) ∧
    (AnimatedProgressBar.progressEffect p animated animationDuration true
        bpv).anim = Anim.rest ∧
    (AnimatedProgressBar.indeterminateEffectCleanup iv).anim = Anim.rest := by
  cases animated <;>
    simp [AnimatedProgressCircle.spinEffect, AnimatedProgressCircle.progressEffect,
      AnimatedProgressCircle.spinEffectCleanup,
      AnimatedProgressBar.indeterminateEffect, AnimatedProgressBar.progressEffect,
      AnimatedProgressBar.indeterminateEffectCleanup,
      settledValue, settleTime, setValue, cancelAnimation, withTimingTo,
      withRepeatTo, hdur]

/-- **C7 witness.** Switching the circle from a spinning state to
determinate with `progress = 1/2`, `animationDuration = 300`: the spin is
reset to `0` at rest and the progress value settles at the clamped
progress. -/
theorem mode_switch_cancellation_witness :
    (0:ℚ) ≤ 300 ∧
    (AnimatedProgressCircle.spinEffect false 1000
      ⟨120, Anim.repeatTiming 360 1000 false⟩).value = 0 ∧
    (AnimatedProgressCircle.spinEffect false 1000
      ⟨120, Anim.repeatTiming 360 1000 false⟩).anim = Anim.rest ∧
    settledValue (AnimatedProgressCircle.progressEffect (1/2) true 300 false
      ⟨0, Anim.rest⟩) = AnimatedProgressCircle.clampProgress (1/2) := by
  have h := mode_switch_cancellation (1/2) true 300 1000 1000 (by norm_num)
    ⟨0, Anim.rest⟩ ⟨120, Anim.repeatTiming 360 1000 false⟩
    ⟨0, Anim.repeatTiming 1 1000 true⟩ ⟨0, Anim.rest⟩
  exact ⟨by norm_num, h.2.1, h.1, h.2.2.1⟩

/-- **C6 counterexample.** With `indeterminateDuration = 1000` and a
representative easing (the identity, which satisfies the timing-curve
boundary conditions), the phase at `t = 0 + 1000` is `1` while the phase
at `t = 0` is `0`: the animation has not returned to its starting value
after `indeterminateDuration`, so one full oscillation period is not
`indeterminateDuration`. -/
theorem indeterminate_period_counterexample :
    pingPongPhase 1000 (fun x => x) (0 + 1000) ≠ pingPongPhase 1000 (fun x => x) 0 := by
  norm_num [pingPongPhase, Int.fract]

/-- **C6 (amended).** While the bar is indeterminate, the effect starts an
indefinitely looping ping-pong timing (it never settles); the phase
reverses direction at each bound — on the first leg it follows the
easing curve from `0` to `1` and on the second leg it replays it
mirrored from `1` back to `0` — and the phase is periodic with one full
oscillation period `2 * indeterminateDuration`, each one-way traversal
taking `indeterminateDuration`. -/
theorem indeterminate_bar_ping_pong (d : ℚ) (hd : 0 < d) (e : ℚ → ℚ)
    (he0 : e 0 = 0) (he1 : e 1 = 1) (t : ℚ) (iv : SV) :
    (AnimatedProgressBar.indeterminateEffect true d iv).anim
        = Anim.repeatTiming 1 d true ∧
    settleTime (AnimatedProgressBar.indeterminateEffect true d iv) = none ∧
    pingPongPhase d e (t + 2 * d) = pingPongPhase d e t ∧
    (∀ s, 0 ≤ s → s < d → pingPongPhase d e s = e (s / d)) ∧
    (∀ s, 0 ≤ s → s < d → pingPongPhase d e (d + s) = 1 - e (s / d)) ∧
    pingPongPhase d e 0 = 0 ∧
    pingPongPhase d e d = 1 := by
  have hdne : d ≠ 0 := ne_of_gt hd
  have hleg : ∀ s, 0 ≤ s → s < d →
      ⌊s / d⌋ = 0 ∧ Int.fract (s / d) = s / d := by
    intro s hs hsd
    have h0 : 0 ≤ s / d := div_nonneg hs hd.le
    have h1 : s / d < 1 := (div_lt_one hd).mpr hsd
    exact ⟨Int.floor_eq_zero_iff.mpr ⟨h0, h1⟩, Int.fract_eq_self.mpr ⟨h0, h1⟩⟩
  refine ⟨by simp [AnimatedProgressBar.indeterminateEffect, withRepeatTo],
    by simp [AnimatedProgressBar.indeterminateEffect, withRepeatTo, settleTime],
    ?_, ?_, ?_, ?_, ?_⟩
  · unfold pingPongPhase
    have h1 : (t + 2 * d) / d = t / d + (2 : ℤ) := by
      push_cast
      field_simp
    have h2 : (⌊t / d⌋ + 2) % 2 = ⌊t / d⌋ % 2 := by omega
    rw [h1, Int.floor_add_int, Int.fract_add_int, h2]
  · intro s hs hsd
    obtain ⟨hf, hfr⟩ := hleg s hs hsd
    unfold pingPongPhase
    rw [hf, hfr]
    norm_num
  · intro s hs hsd
    obtain ⟨hf, hfr⟩ := hleg s hs hsd
    have h1 : (d + s) / d = s / d + (1 : ℤ) := by
      push_cast
      field_simp
      ring
    unfold pingPongPhase
    rw [h1, Int.floor_add_int, Int.fract_add_int, hf, hfr]
    norm_num
  · unfold pingPongPhase
    simp [he0]
  · unfold pingPongPhase
    rw [div_self hdne]
    norm_num [Int.fract, he0]

/-- **C6 witness.** At `indeterminateDuration = 1000` with the identity
easing: the phase returns to its start after `2 * 1000` ms, starts at `0`
and reaches the far bound `1` after one `1000` ms leg. -/
theorem indeterminate_bar_ping_pong_witness :
    (0:ℚ) < 1000 ∧
    pingPongPhase 1000 (fun x => x) (0 + 2 * 1000)
      = pingPongPhase 1000 (fun x => x) 0 ∧
    pingPongPhase 1000 (fun x => x) 0 = 0 ∧
    pingPongPhase 1000 (fun x => x) 1000 = 1 := by
  have h := indeterminate_bar_ping_pong 1000 (by norm_num) (fun x => x)
    rfl rfl 0 ⟨0, Anim.rest⟩
  exact ⟨by norm_num, h.2.2.1, h.2.2.2.2.2.1, h.2.2.2.2.2.2⟩

end ReanimatedProgress
